import Mathlib

/-!
Verification of the `SimpleAsyncReader` stream adapter from `src/main.rs`
(fasterthanlime/surviving).

The adapter bridges a suspend/resume-style read operation
(`SimpleRead::simple_read`, which consumes the reader and an owned buffer
and eventually yields `(reader, buffer, result)`) to the poll-based
`AsyncRead::poll_read` contract.

Shallow embedding choices:
* `RVec` models a Rust `Vec<u8>`: a physical store (up to capacity) of
  `Option Nat` cells (`none` = a byte never written, i.e. uninitialized
  memory) plus a logical length `len`.  `clear`, `reserve` and the unsafe
  `set_len` are translated operation-by-operation from the source.
* The wrapped reader (`TracingReader` over a file) is modelled as a
  scripted `Reader`: each read attempt consumes one `Attempt` from the
  script, an `Attempt` being a number of scheduler polls during which the
  boxed future reports `Pending` (the artificial delay in `simple_read`)
  followed by a response (`ok bytes` — the bytes the source places in the
  destination buffer, reporting `Ok(bytes.length)` — or `err e`).
* The boxed future built at `main.rs:161-164` is `Fut`: it owns the
  reader and the internal buffer and, once its delay is exhausted,
  performs `simple_read` and yields the 3-tuple.
* Rust panics (the `unreachable!()` on `Transitional`, an out-of-bounds
  `&mut buf[..n]`) and undefined behaviour (`set_len` past capacity)
  are modelled by `poll_read` returning `none`.
* The caller's output buffer is a `List (Option Nat)`; copying an
  uninitialized byte propagates `none`.
-/

deriving instance DecidableEq for Except

namespace Surviving

/-- Model of Rust `Vec<u8>`: `store` is the physical memory the vector
may touch (its length is the capacity), each cell `none` when that byte
was never written; `len` is the logical length set by `set_len`. -/
structure RVec where
  store : List (Option Nat)
  len : Nat
deriving Repr, DecidableEq

/-- `Default::default()` — the empty vector (`main.rs:54`). -/
def RVec.empty : RVec := ⟨[], 0⟩

/-- `Vec::clear` — drops the logical contents, keeps the allocation. -/
def RVec.clear (v : RVec) : RVec := { v with len := 0 }

/-- `Vec::reserve` after a `clear` — grow capacity to at least `n`;
newly acquired memory is uninitialized (`none`). -/
def RVec.reserve (v : RVec) (n : Nat) : RVec :=
  { v with store := v.store ++ List.replicate (n - v.store.length) none }

/-- `Vec::set_len` — the unsafe length write; no check at all, exactly
as in the source (`main.rs:159,178,184`). -/
def RVec.set_len (v : RVec) (n : Nat) : RVec := { v with len := n }

/-- The slice `&v[..]`: the logical contents of the vector. -/
def RVec.view (v : RVec) : List (Option Nat) := v.store.take v.len

/-- The effect of the source writing `bs` at the front of the buffer
slice handed to `simple_read`. -/
def RVec.writeFront (v : RVec) (bs : List Nat) : RVec :=
  { v with store := bs.map some ++ v.store.drop bs.length }

/-- The response of one underlying read attempt: `ok bytes` places
`bytes` (clipped to the slice it was handed) at the front of the buffer
and reports `Ok(bytes.length)`; `err e` reports an I/O error. -/
inductive ReadResp where
  | ok (bytes : List Nat)
  | err (e : Nat)
deriving Repr, DecidableEq

/-- One scripted read attempt: the future reports `Pending` for `pend`
scheduler polls (the artificial delay of `TracingReader::simple_read`,
`main.rs:113`), then completes with `resp`. -/
structure Attempt where
  pend : Nat
  resp : ReadResp
deriving Repr, DecidableEq

/-- The wrapped reader (`TracingReader` over a byte source), modelled by
the script of its future read attempts.  An exhausted script is
end-of-data: every further attempt reports `Ok(0)`. -/
structure Reader where
  script : List Attempt
deriving Repr, DecidableEq

/-- `SimpleRead::simple_read` (`main.rs:107-121`) at the moment it
completes: consumes one script entry, writes the produced bytes into the
buffer slice it was handed (of length `v.len`), and returns the result.
A well-behaved source produces at most `v.len` bytes; the model lets the
*reported* count `bytes.length` exceed that, as a safe but buggy
`AsyncRead` implementation can. -/
def simple_read (r : Reader) (v : RVec) : Reader × RVec × Except Nat Nat :=
  match r.script with
  | [] => (⟨[]⟩, v, Except.ok 0)
  | a :: rest =>
    match a.resp with
    | ReadResp.ok bytes =>
        (⟨rest⟩, v.writeFront (bytes.take v.len), Except.ok bytes.length)
    | ReadResp.err e => (⟨rest⟩, v, Except.error e)

/-- The boxed future built at `main.rs:161-164`: owns the reader and the
internal buffer; completing yields `(reader, buffer, result)`. -/
structure Fut where
  reader : Reader
  buf : RVec
deriving Repr, DecidableEq

/-- Result of polling the boxed future once. -/
inductive FutPoll where
  | pending (f : Fut)
  | ready (out : Reader × RVec × Except Nat Nat)
deriving Repr, DecidableEq

/-- One poll of the boxed future: while the current attempt's delay is
positive the future is `Pending` (decrementing the delay); otherwise
`simple_read` completes and the future is `Ready` with the 3-tuple. -/
def Fut.poll (f : Fut) : FutPoll :=
  match f.reader.script with
  | [] => FutPoll.ready (simple_read f.reader f.buf)
  | a :: rest =>
    match a.pend with
    | 0 => FutPoll.ready (simple_read f.reader f.buf)
    | p + 1 => FutPoll.pending ⟨⟨⟨p, a.resp⟩ :: rest⟩, f.buf⟩

/-- `enum State` (`main.rs:134-138`). -/
inductive State where
  | idle (reader : Reader) (buf : RVec)
  | pending (fut : Fut)
  | transitional
deriving Repr, DecidableEq

/-- The value `poll_read` reports to its caller. -/
inductive PollRes where
  | ready (r : Except Nat Nat)
  | pend
deriving Repr, DecidableEq

/-- The `State::Idle` arm of `poll_read` (`main.rs:155-165`):
`internal_buf.clear(); internal_buf.reserve(buf.len());
unsafe { internal_buf.set_len(buf.len()) }` and box a future that will
run `simple_read` against that buffer. -/
def mkFut (r : Reader) (v : RVec) (reqLen : Nat) : Fut :=
  ⟨r, ((v.clear).reserve reqLen).set_len reqLen⟩

/-- The second half of `poll_read` (`main.rs:173-194`): poll the future;
on `Ready((inner, internal_buf, result))` with `Ok(n)` do
`unsafe { internal_buf.set_len(n) }` (UB when `n` exceeds capacity,
modelled as `none`), take `&mut buf[..n]` (panic when `n > buf.len()`,
modelled as `none`) and `copy_from_slice`; on an error truncate to 0; in
both cases store `Idle` back.  On `Pending` store `Pending(fut)` back. -/
def finishStep (fut : Fut) (buf : List (Option Nat)) :
    Option (State × PollRes × List (Option Nat)) :=
  match fut.poll with
  | FutPoll.pending f => some (State.pending f, PollRes.pend, buf)
  | FutPoll.ready (inner, ibuf, result) =>
    match result with
    | Except.ok n =>
      if n ≤ ibuf.store.length then
        let ibuf2 := ibuf.set_len n
        if n ≤ buf.length then
          some (State.idle inner ibuf2, PollRes.ready (Except.ok n),
                ibuf2.view ++ buf.drop n)
        else none
      else none
    | Except.error e =>
      some (State.idle inner (ibuf.set_len 0),
            PollRes.ready (Except.error e), buf)

/-- `SimpleAsyncReader::poll_read` (`main.rs:145-195`).  The state slot
is swapped to `Transitional`, matched on (the `Transitional` arm is
`unreachable!()`, modelled as `none` = panic), and the resulting future
is polled by `finishStep`. -/
def poll_read (st : State) (buf : List (Option Nat)) :
    Option (State × PollRes × List (Option Nat)) :=
  match st with
  | State.transitional => none
  | State.idle inner ibuf => finishStep (mkFut inner ibuf buf.length) buf
  | State.pending fut => finishStep fut buf

/-- The adapter as created by `hash_file` (`main.rs:53-55`):
`Idle(reader, Default::default())`. -/
def initState (r : Reader) : State := State.idle r RVec.empty

/-- Repeatedly poll the adapter (the caller re-polling after each
`Pending`) until it reports `Ready`, with `fuel` bounding the number of
polls; `none` when fuel runs out or a poll panics. -/
def drive : Nat → State → List (Option Nat) →
    Option (State × Except Nat Nat × List (Option Nat))
  | 0, _, _ => none
  | fuel + 1, st, buf =>
    match poll_read st buf with
    | none => none
    | some (st1, PollRes.pend, buf1) => drive fuel st1 buf1
    | some (st1, PollRes.ready r, buf1) => some (st1, r, buf1)

/-- Spec-side model, for the refinement claim: what a *direct
synchronous read* of the same source produces for a request of `reqLen`
bytes — the bytes delivered (in order) and the reported result. -/
def syncRead (r : Reader) (reqLen : Nat) : Reader × List Nat × Except Nat Nat :=
  match r.script with
  | [] => (⟨[]⟩, [], Except.ok 0)
  | a :: rest =>
    match a.resp with
    | ReadResp.ok bytes => (⟨rest⟩, bytes.take reqLen, Except.ok bytes.length)
    | ReadResp.err e => (⟨rest⟩, [], Except.error e)

/-- The post-`poll_read` state-shape invariant of the adapter: a `Ready`
result leaves `Idle` with the internal buffer's logical length equal to
the byte count (0 on error); a `Pending` result leaves `Pending`; no
other combination — in particular `Transitional` — is ever stored. -/
def shapeInv : Option (State × PollRes × List (Option Nat)) → Prop
  | none => True
  | some (State.idle _ v, PollRes.ready (Except.ok n), _) => v.len = n
  | some (State.idle _ v, PollRes.ready (Except.error _), _) => v.len = 0
  | some (State.pending _, PollRes.pend, _) => True
  | some _ => False

/-- The state a completed `poll_read` stores back is legal: never the
`Transitional` placeholder (a panic, modelled `none`, stores nothing). -/
def storesLegalState : Option (State × PollRes × List (Option Nat)) → Prop
  | none => True
  | some (st1, _, _) => st1 ≠ State.transitional

/-! ### Helper lemmas -/

theorem RVec.writeFront_store_length (v : RVec) (bs : List Nat)
    (h : bs.length ≤ v.store.length) :
    (v.writeFront bs).store.length = v.store.length := by
  simp [RVec.writeFront]
  omega

theorem RVec.view_writeFront_set_len (v : RVec) (bs : List Nat) :
    ((v.writeFront bs).set_len bs.length).view = bs.map some := by
  simp only [RVec.writeFront, RVec.set_len, RVec.view]
  rw [show bs.length = (bs.map some).length by simp]
  exact List.take_left _ _

theorem mkFut_reader (r : Reader) (v : RVec) (n : Nat) :
    (mkFut r v n).reader = r := rfl

theorem mkFut_buf_len (r : Reader) (v : RVec) (n : Nat) :
    (mkFut r v n).buf.len = n := rfl

theorem mkFut_store_length (r : Reader) (v : RVec) (n : Nat) :
    (mkFut r v n).buf.store.length = v.store.length + (n - v.store.length) := by
  simp [mkFut, RVec.clear, RVec.reserve, RVec.set_len]

theorem mkFut_store_le (r : Reader) (v : RVec) (n : Nat) :
    n ≤ (mkFut r v n).buf.store.length := by
  rw [mkFut_store_length]
  omega

/-- Completing a pending operation whose next response is `ok bytes`,
with a well-behaved byte count and a caller buffer at least that long:
the success branch of `poll_read` (`main.rs:176-182,186-187`). -/
theorem finishStep_ok (rest : List Attempt) (bytes : List Nat) (w : RVec)
    (buf : List (Option Nat))
    (hwb : bytes.length ≤ w.len) (hcap : w.len ≤ w.store.length)
    (hdst : bytes.length ≤ buf.length) :
    finishStep ⟨⟨⟨0, ReadResp.ok bytes⟩ :: rest⟩, w⟩ buf =
      some (State.idle ⟨rest⟩ ((w.writeFront bytes).set_len bytes.length),
            PollRes.ready (Except.ok bytes.length),
            bytes.map some ++ buf.drop bytes.length) := by
  have htake : bytes.take w.len = bytes := List.take_of_length_le hwb
  have hsl : (w.writeFront bytes).store.length = w.store.length :=
    RVec.writeFront_store_length w bytes (le_trans hwb hcap)
  have h1 : bytes.length ≤ (w.writeFront bytes).store.length := by
    rw [hsl]
    exact le_trans hwb hcap
  simp only [finishStep, Fut.poll, simple_read, htake]
  rw [if_pos h1, if_pos hdst, RVec.view_writeFront_set_len]

/-- Completing a pending operation whose next response is an error: the
failure branch of `poll_read` (`main.rs:183-187`). -/
theorem finishStep_err (rest : List Attempt) (e : Nat) (w : RVec)
    (buf : List (Option Nat)) :
    finishStep ⟨⟨⟨0, ReadResp.err e⟩ :: rest⟩, w⟩ buf =
      some (State.idle ⟨rest⟩ (w.set_len 0),
            PollRes.ready (Except.error e), buf) := rfl

/-- One `Pending` poll only decrements the current attempt's countdown. -/
theorem drive_pending_step (p : Nat) (resp : ReadResp) (rest : List Attempt)
    (w : RVec) (buf : List (Option Nat)) (fuel : Nat) :
    drive (fuel + 1) (State.pending ⟨⟨⟨p + 1, resp⟩ :: rest⟩, w⟩) buf
      = drive fuel (State.pending ⟨⟨⟨p, resp⟩ :: rest⟩, w⟩) buf := rfl

theorem drive_pending_countdown (p fuel : Nat) (resp : ReadResp)
    (rest : List Attempt) (w : RVec) (buf : List (Option Nat)) :
    drive (p + (fuel + 1)) (State.pending ⟨⟨⟨p, resp⟩ :: rest⟩, w⟩) buf
      = drive (fuel + 1) (State.pending ⟨⟨⟨0, resp⟩ :: rest⟩, w⟩) buf := by
  induction p with
  | zero => rw [Nat.zero_add]
  | succ q ih =>
      rw [show q + 1 + (fuel + 1) = q + (fuel + 1) + 1 by omega,
        drive_pending_step]
      exact ih

/-- Once a poll reports `Ready`, `drive` returns that result whatever
fuel remains. -/
theorem drive_succ_of_ready (fuel : Nat) (st : State)
    (buf buf1 : List (Option Nat)) (st1 : State) (res : Except Nat Nat)
    (h : poll_read st buf = some (st1, PollRes.ready res, buf1)) :
    drive (fuel + 1) st buf = some (st1, res, buf1) := by
  unfold drive
  rw [h]

theorem poll_read_idle_eq (r : Reader) (v : RVec) (buf : List (Option Nat)) :
    poll_read (State.idle r v) buf = finishStep (mkFut r v buf.length) buf := rfl

theorem poll_read_pending_eq (f : Fut) (buf : List (Option Nat)) :
    poll_read (State.pending f) buf = finishStep f buf := rfl

/-- Driving the adapter from `Idle` through the `p` `Pending` polls of
the current attempt to its `ok bytes` completion, for a well-behaved
byte count. -/
theorem drive_idle_ok
    (p : Nat) (bytes : List Nat) (rest : List Attempt)
    (v : RVec) (buf : List (Option Nat))
    (hwb : bytes.length ≤ buf.length) :
    drive (p + 1) (State.idle ⟨⟨p, ReadResp.ok bytes⟩ :: rest⟩ v) buf =
      some (State.idle ⟨rest⟩
              (((mkFut ⟨⟨p, ReadResp.ok bytes⟩ :: rest⟩ v buf.length).buf.writeFront
                  bytes).set_len bytes.length),
            Except.ok bytes.length,
            bytes.map some ++ buf.drop bytes.length) := by
  have hcore : poll_read
      (State.pending ⟨⟨⟨0, ReadResp.ok bytes⟩ :: rest⟩,
        (mkFut ⟨⟨p, ReadResp.ok bytes⟩ :: rest⟩ v buf.length).buf⟩) buf =
      some (State.idle ⟨rest⟩
              (((mkFut ⟨⟨p, ReadResp.ok bytes⟩ :: rest⟩ v buf.length).buf.writeFront
                  bytes).set_len bytes.length),
            PollRes.ready (Except.ok bytes.length),
            bytes.map some ++ buf.drop bytes.length) := by
    rw [poll_read_pending_eq]
    exact finishStep_ok rest bytes _ buf
      (by rw [mkFut_buf_len]; exact hwb)
      (by rw [mkFut_buf_len]; exact mkFut_store_le _ _ _)
      hwb
  cases p with
  | zero => exact drive_succ_of_ready 0 _ _ _ _ _ hcore
  | succ q =>
      have hfirst : drive (q + 1 + 1)
          (State.idle ⟨⟨q + 1, ReadResp.ok bytes⟩ :: rest⟩ v) buf
          = drive (q + 1) (State.pending ⟨⟨⟨q, ReadResp.ok bytes⟩ :: rest⟩,
              (mkFut ⟨⟨q + 1, ReadResp.ok bytes⟩ :: rest⟩ v buf.length).buf⟩)
              buf := rfl
      rw [hfirst, show q + 1 = q + (0 + 1) from rfl, drive_pending_countdown]
      exact drive_succ_of_ready 0 _ _ _ _ _ hcore

/-! ### The claims -/

/-- Claim C1: for every sequence of `poll_read` calls that returns
`Pending` `p` times and then `Ready`, the bytes delivered into the
caller's output buffer equal, in order and byte-for-byte, the bytes a
direct synchronous read of the same source (`syncRead`) would have
produced; the rest of the output buffer is untouched (no speculative
read-ahead beyond the single in-flight attempt) and the reader ends in
the same state as after the synchronous read (no reordering,
duplication, or extra consumption). -/
theorem poll_read_refines_syncRead
    (p : Nat) (bytes : List Nat) (rest : List Attempt)
    (v : RVec) (buf : List (Option Nat)) (r : Reader)
    (hs : r.script = ⟨p, ReadResp.ok bytes⟩ :: rest)
    (hwb : bytes.length ≤ buf.length) :
    drive (p + 1) (State.idle r v) buf =
      some (State.idle (syncRead r buf.length).1
              (((mkFut r v buf.length).buf.writeFront bytes).set_len bytes.length),
            Except.ok bytes.length,
            ((syncRead r buf.length).2.1).map some ++ buf.drop bytes.length)
      ∧ (syncRead r buf.length).2.1 = bytes
      ∧ (syncRead r buf.length).2.2 = Except.ok bytes.length := by
  obtain ⟨s⟩ := r
  change s = _ at hs
  subst hs
  have hsync : syncRead ⟨⟨p, ReadResp.ok bytes⟩ :: rest⟩ buf.length
      = (⟨rest⟩, bytes, Except.ok bytes.length) := by
    simp [syncRead, List.take_of_length_le hwb]
  rw [hsync]
  exact ⟨drive_idle_ok p bytes rest v buf hwb, rfl, rfl⟩

/-- Witness for C1: a source that is `Pending` twice and then delivers
`[10, 20]` into a 3-byte request behaves exactly as its synchronous
read. -/
theorem poll_read_refines_syncRead_witness :
    drive (2 + 1)
        (State.idle (⟨[⟨2, ReadResp.ok [10, 20]⟩]⟩ : Reader) RVec.empty)
        [some 0, some 0, some 0] =
      some (State.idle (syncRead ⟨[⟨2, ReadResp.ok [10, 20]⟩]⟩
              [some 0, some 0, some 0].length).1
              (((mkFut ⟨[⟨2, ReadResp.ok [10, 20]⟩]⟩ RVec.empty
                  [some 0, some 0, some 0].length).buf.writeFront
                  [10, 20]).set_len [10, 20].length),
            Except.ok [10, 20].length,
            ((syncRead ⟨[⟨2, ReadResp.ok [10, 20]⟩]⟩
                [some 0, some 0, some 0].length).2.1).map some
              ++ [some 0, some 0, some 0].drop [10, 20].length)
      ∧ (syncRead ⟨[⟨2, ReadResp.ok [10, 20]⟩]⟩
          [some 0, some 0, some 0].length).2.1 = [10, 20]
      ∧ (syncRead ⟨[⟨2, ReadResp.ok [10, 20]⟩]⟩
          [some 0, some 0, some 0].length).2.2 = Except.ok [10, 20].length :=
  poll_read_refines_syncRead 2 [10, 20] [] RVec.empty
    [some 0, some 0, some 0] ⟨[⟨2, ReadResp.ok [10, 20]⟩]⟩ rfl (by decide)

theorem finishStep_shapeInv (f : Fut) (buf : List (Option Nat)) :
    shapeInv (finishStep f buf) := by
  unfold finishStep
  rcases hfp : f.poll with f1 | out
  · simp [shapeInv]
  · obtain ⟨inner, ibuf, result⟩ := out
    rcases result with e | n
    · simp [shapeInv, RVec.set_len]
    · by_cases h1 : n ≤ ibuf.store.length
      · by_cases h2 : n ≤ buf.length
        · simp [h1, h2, shapeInv, RVec.set_len]
        · simp [h1, h2, shapeInv]
      · simp [h1, shapeInv]

theorem finishStep_storesLegal (f : Fut) (buf : List (Option Nat)) :
    storesLegalState (finishStep f buf) := by
  unfold finishStep
  rcases hfp : f.poll with f1 | out
  · simp [storesLegalState]
  · obtain ⟨inner, ibuf, result⟩ := out
    rcases result with e | n
    · simp [storesLegalState]
    · by_cases h1 : n ≤ ibuf.store.length
      · by_cases h2 : n ≤ buf.length
        · simp [h1, h2, storesLegalState]
        · simp [h1, h2, storesLegalState]
      · simp [h1, storesLegalState]

/-- Claim C2: after any `poll_read` that returns, a `Ready` result
leaves the slot `Idle(reader, internal_buffer)`, a `Pending` result
leaves it `Pending(op)`, and `Transitional` (or any mismatched
combination) is never stored; moreover the internal buffer's logical
length equals the number of bytes valid after the last completed
attempt — the returned count on success, 0 after an error. -/
theorem poll_read_shapeInv (st : State) (buf : List (Option Nat)) :
    shapeInv (poll_read st buf) := by
  cases st with
  | transitional => trivial
  | idle r v => exact finishStep_shapeInv _ _
  | pending f => exact finishStep_shapeInv _ _

/-- Claim C7: a `poll_read` that finds the slot already `Transitional`
(a re-entrant poll before the first call stored a legal state back) is
a fatal contract violation — the `unreachable!()` panic, modelled as
`none` — rather than a corrupting return; and no `poll_read` that does
return ever stores `Transitional` in the slot. -/
theorem poll_read_transitional_fatal (st : State) (buf : List (Option Nat)) :
    poll_read State.transitional buf = none
    ∧ storesLegalState (poll_read st buf) := by
  refine ⟨rfl, ?_⟩
  cases st with
  | transitional => trivial
  | idle r v => exact finishStep_storesLegal _ _
  | pending f => exact finishStep_storesLegal _ _

/-- Claim C3: when the in-flight operation completes with `Ok(n)` and
its internal buffer was sized to the caller's requested length (with the
source honouring the read contract `n ≤ internal_buffer.len`), exactly
the first `n` bytes of the internal buffer are copied into the caller's
output buffer, the internal buffer's logical length is truncated to `n`,
and `n` does not exceed the output buffer's length, so the copy is in
bounds. -/
theorem poll_read_ok_copies
    (rest : List Attempt) (bytes : List Nat) (w : RVec)
    (buf : List (Option Nat))
    (hwb : bytes.length ≤ w.len) (hlen : w.len = buf.length)
    (hcap : w.len ≤ w.store.length) :
    poll_read (State.pending ⟨⟨⟨0, ReadResp.ok bytes⟩ :: rest⟩, w⟩) buf =
      some (State.idle ⟨rest⟩ ((w.writeFront bytes).set_len bytes.length),
            PollRes.ready (Except.ok bytes.length),
            ((w.writeFront bytes).set_len bytes.length).view
              ++ buf.drop bytes.length)
    ∧ ((w.writeFront bytes).set_len bytes.length).view = bytes.map some
    ∧ ((w.writeFront bytes).set_len bytes.length).len = bytes.length
    ∧ bytes.length ≤ buf.length := by
  have hdst : bytes.length ≤ buf.length := hlen ▸ hwb
  refine ⟨?_, RVec.view_writeFront_set_len w bytes, rfl, hdst⟩
  rw [poll_read_pending_eq, finishStep_ok rest bytes w buf hwb hcap hdst,
    RVec.view_writeFront_set_len w bytes]

/-- Witness for C3: completing with `Ok(1)` on a 2-byte request copies
exactly the one produced byte. -/
theorem poll_read_ok_copies_witness :
    poll_read (State.pending ⟨⟨[⟨0, ReadResp.ok [7]⟩]⟩,
        (⟨[some 0, some 0], 2⟩ : RVec)⟩) [some 1, some 1] =
      some (State.idle ⟨[]⟩
              (((⟨[some 0, some 0], 2⟩ : RVec).writeFront [7]).set_len [7].length),
            PollRes.ready (Except.ok [7].length),
            (((⟨[some 0, some 0], 2⟩ : RVec).writeFront [7]).set_len
                [7].length).view ++ [some 1, some 1].drop [7].length)
    ∧ (((⟨[some 0, some 0], 2⟩ : RVec).writeFront [7]).set_len
        [7].length).view = [7].map some
    ∧ (((⟨[some 0, some 0], 2⟩ : RVec).writeFront [7]).set_len
        [7].length).len = [7].length
    ∧ [7].length ≤ [some 1, some 1].length :=
  poll_read_ok_copies [] [7] ⟨[some 0, some 0], 2⟩ [some 1, some 1]
    (by decide) (by decide) (by decide)

/-- Claim C4: when the in-flight operation completes with an error, the
internal buffer's logical length is truncated to 0, the caller's output
buffer is untouched, the error is returned as `Ready(Err)`, the adapter
returns to `Idle` holding the same (advanced) reader, and a subsequent
poll starts a fresh read operation against that same source. -/
theorem poll_read_err_discards
    (rest : List Attempt) (e : Nat) (w : RVec) (buf : List (Option Nat)) :
    poll_read (State.pending ⟨⟨⟨0, ReadResp.err e⟩ :: rest⟩, w⟩) buf =
      some (State.idle ⟨rest⟩ (w.set_len 0),
            PollRes.ready (Except.error e), buf)
    ∧ (w.set_len 0).len = 0
    ∧ (∀ buf2 : List (Option Nat),
        poll_read (State.idle ⟨rest⟩ (w.set_len 0)) buf2
            = finishStep (mkFut ⟨rest⟩ (w.set_len 0) buf2.length) buf2
          ∧ (mkFut ⟨rest⟩ (w.set_len 0) buf2.length).reader = ⟨rest⟩) :=
  ⟨rfl, rfl, fun _ => ⟨rfl, rfl⟩⟩

/-- Claim C5: a `poll_read` that finds `Idle(reader, internal_buffer)`
clears the internal buffer, resizes it to exactly the output buffer's
length (with at least that much capacity), and starts a new read
operation holding the same reader and that buffer, which is the
operation advanced this cycle. -/
theorem poll_read_idle_starts_op (r : Reader) (v : RVec)
    (buf : List (Option Nat)) :
    poll_read (State.idle r v) buf = finishStep (mkFut r v buf.length) buf
    ∧ (mkFut r v buf.length).reader = r
    ∧ (mkFut r v buf.length).buf.len = buf.length
    ∧ buf.length ≤ (mkFut r v buf.length).buf.store.length :=
  ⟨rfl, rfl, rfl, mkFut_store_le r v buf.length⟩

/-- Claim C6: a `poll_read` that finds `Pending(op)` advances exactly
the existing operation `op` (no new operation is built — polling a
pending state is precisely `finishStep` on the stored future), and a
still-`Pending` attempt only counts down its delay: the operation keeps
the same owned buffer and the same scripted responses, so no bytes are
duplicated or lost across `Pending` polls. -/
theorem poll_read_pending_reuses_op (q : Nat) (resp : ReadResp)
    (rest : List Attempt) (w : RVec) (buf : List (Option Nat)) :
    poll_read (State.pending ⟨⟨⟨q + 1, resp⟩ :: rest⟩, w⟩) buf =
      some (State.pending ⟨⟨⟨q, resp⟩ :: rest⟩, w⟩, PollRes.pend, buf)
    ∧ (∀ f : Fut, poll_read (State.pending f) buf = finishStep f buf) :=
  ⟨rfl, fun _ => rfl⟩

/-- Claim C8: a `poll_read` with a zero-length output buffer sizes the
internal buffer to 0 and delegates to the source's own zero-length read
semantics; with the source answering `Ok(0)` (after `p` pending polls)
the normal cycle applies unchanged: `Ready(Ok(0))`, adapter back in
`Idle`, no state corruption. -/
theorem poll_read_zero_len (r : Reader) (p : Nat) (rest : List Attempt)
    (v : RVec) (hs : r.script = ⟨p, ReadResp.ok []⟩ :: rest) :
    (mkFut r v 0).buf.len = 0
    ∧ drive (p + 1) (State.idle r v) [] =
        some (State.idle ⟨rest⟩
                (((mkFut r v 0).buf.writeFront []).set_len 0),
              Except.ok 0, []) := by
  obtain ⟨s⟩ := r
  change s = _ at hs
  subst hs
  exact ⟨rfl, drive_idle_ok p [] rest v [] (Nat.le_refl 0)⟩

/-- Witness for C8: one pending poll then `Ok(0)` on a zero-length
request. -/
theorem poll_read_zero_len_witness :
    (mkFut (⟨[⟨1, ReadResp.ok []⟩]⟩ : Reader) RVec.empty 0).buf.len = 0
    ∧ drive (1 + 1)
          (State.idle (⟨[⟨1, ReadResp.ok []⟩]⟩ : Reader) RVec.empty) [] =
        some (State.idle ⟨[]⟩
                (((mkFut (⟨[⟨1, ReadResp.ok []⟩]⟩ : Reader) RVec.empty
                    0).buf.writeFront []).set_len 0),
              Except.ok 0, []) :=
  poll_read_zero_len ⟨[⟨1, ReadResp.ok []⟩]⟩ 1 [] RVec.empty rfl

/-- Claim C9: transitioning out of `Idle` sets the internal buffer's
length to the requested size without initializing the newly exposed
bytes: every cell past the previously allocated store is uninitialized
(`none`) in the buffer handed to the read attempt, and starting from the
adapter's fresh empty vector the attempt receives an entirely
uninitialized buffer — the undefined behaviour the spec flags. -/
theorem mkFut_hands_uninit_memory (r : Reader) (v : RVec) (n : Nat) :
    (mkFut r v n).buf.len = n
    ∧ ((mkFut r v n).buf.view).drop v.store.length
        = List.replicate (n - v.store.length) none
    ∧ (mkFut r RVec.empty n).buf.view = List.replicate n none := by
  refine ⟨rfl, ?_, ?_⟩
  · simp only [mkFut, RVec.clear, RVec.reserve, RVec.set_len, RVec.view]
    rw [List.drop_take, List.drop_left, List.take_replicate]
    simp
  · simp [mkFut, RVec.empty, RVec.clear, RVec.reserve, RVec.set_len,
      RVec.view, List.take_replicate]

/-- Claim C10: a source whose reported count exceeds the request makes
the success branch unsound: on `Ok(n)` with `n` larger than the output
buffer, `poll_read` hits `set_len` past capacity / an out-of-bounds
slice (modelled `none` — UB or panic), instead of returning an error. -/
theorem poll_read_overreport_unsound (r : Reader) (rest : List Attempt)
    (bytes : List Nat) (v : RVec) (buf : List (Option Nat))
    (hs : r.script = ⟨0, ReadResp.ok bytes⟩ :: rest)
    (hover : buf.length < bytes.length) :
    poll_read (State.idle r v) buf = none := by
  obtain ⟨s⟩ := r
  change s = _ at hs
  subst hs
  have hred : poll_read (State.idle ⟨⟨0, ReadResp.ok bytes⟩ :: rest⟩ v) buf
      = finishStep ⟨⟨⟨0, ReadResp.ok bytes⟩ :: rest⟩,
          ((v.clear).reserve buf.length).set_len buf.length⟩ buf := rfl
  rw [hred]
  simp only [finishStep, Fut.poll, simple_read]
  split
  · rw [if_neg (Nat.not_le.mpr hover)]
  · rfl

/-- Witness for C10: a source reporting 5 bytes against a 2-byte
request drives `poll_read` into the unsound branch. -/
theorem poll_read_overreport_unsound_witness :
    poll_read (State.idle (⟨[⟨0, ReadResp.ok [1, 2, 3, 4, 5]⟩]⟩ : Reader)
        RVec.empty) [some 0, some 0] = none :=
  poll_read_overreport_unsound ⟨[⟨0, ReadResp.ok [1, 2, 3, 4, 5]⟩]⟩ []
    [1, 2, 3, 4, 5] RVec.empty [some 0, some 0] rfl (by decide)

end Surviving
